import Mathlib

/-!
Verification of the llm-token-wheel token-stepping engine.

The repository ships several iterations of the same components; the
embeddings below follow the sources exactly:

* `UtilsConcat` — the concatenation stitcher of `src/lib/utils.ts`
  (first half of the file: `stitchToken` is plain concatenation).
* `UtilsSmart` — the smart-spacing stitcher of `src/lib/utils.ts`
  (second half of the file: `needsSpaceBefore` / `stitchToken` /
  `stitchTokens`).
* `WheelPage` — the speculation-capable wheel page of
  `src/app/page.tsx` (the `WheelPage` component with
  `PendingRegeneration`, `handleDivergingTokenClick`,
  `handleTokenSelect`, `handleUndo`).  This page imports `WedgeData`
  from `src/lib/utils.ts`, which only the concatenation variant
  exports, so its `stitchToken`/`stitchTokens` are the
  `UtilsConcat` ones.
* `GhostHome` — the ghost-mode home page of `src/app/page.tsx`
  (the `Home` component with `handleStart`, `handleGhostConfirm`,
  `handleGhostCancel`, `handleUndo`).

Asynchronous provider calls are modelled by splitting each handler at
its `await` points: the synchronous segment before an `await` is one
transition, and the continuation that runs when the promise settles is
another, parameterised by the settlement outcome.  In-flight calls are
tracked in an explicit list so that a settlement step can only fire for
a call that was actually started; the number of provider calls started
so far is counted in `calls`.
-/

namespace UtilsConcat

/-- `stitchToken` of `src/lib/utils.ts` (concatenation variant):
Gemini tokens already include their own spacing, so the token is
appended directly to the context. -/
def stitchToken (context token : String) : String :=
  context ++ token

/-- `stitchTokens` of `src/lib/utils.ts` (concatenation variant):
left fold of `stitchToken` over the token array, starting from the
initial context. -/
def stitchTokens (tokens : List String) (initialContext : String) : String :=
  tokens.foldl (fun text token => stitchToken text token) initialContext

theorem stitchTokens_nil (initialContext : String) :
    stitchTokens [] initialContext = initialContext := rfl

theorem stitchTokens_concat (tokens : List String) (token initialContext : String) :
    stitchTokens (tokens ++ [token]) initialContext =
      stitchToken (stitchTokens tokens initialContext) token := by
  simp [stitchTokens, List.foldl_append]

theorem stitchTokens_append (ts1 ts2 : List String) (initialContext : String) :
    stitchTokens (ts1 ++ ts2) initialContext =
      stitchTokens ts2 (stitchTokens ts1 initialContext) := by
  simp [stitchTokens, List.foldl_append]

end UtilsConcat

namespace UtilsSmart

/-- `needsSpaceBefore` of `src/lib/utils.ts` (smart-spacing variant):
decides whether a single space must be inserted between the context and
the next token.  The quote and apostrophe characters are written via
`Char.ofNat` (34 and 39). -/
def needsSpaceBefore (context token : String) : Bool :=
  if token.startsWith " " || token.startsWith "\n" then
    false
  else if context.length == 0 then
    false
  else
    let lastChar := context.back
    let noSpaceAfter : List Char :=
      [' ', '\n', '\t', '(', '[', Char.ofNat 123, Char.ofNat 34, Char.ofNat 39, '-']
    if noSpaceAfter.contains lastChar then
      false
    else
      let punctuation : List Char :=
        ['.', ',', '!', '?', ':', ';', ')', ']', Char.ofNat 125, Char.ofNat 34, Char.ofNat 39]
      if punctuation.contains token.front then
        false
      else
        true

/-- `stitchToken` of `src/lib/utils.ts` (smart-spacing variant):
appends a token to the context, inserting a space when
`needsSpaceBefore` says so. -/
def stitchToken (context token : String) : String :=
  if needsSpaceBefore context token then
    context ++ " " ++ token
  else
    context ++ token

/-- `stitchTokens` of `src/lib/utils.ts` (smart-spacing variant): left
fold of the smart-spacing `stitchToken`. -/
def stitchTokens (tokens : List String) (initialContext : String) : String :=
  tokens.foldl (fun text token => stitchToken text token) initialContext

theorem smart_stitchTokens_append (ts1 ts2 : List String) (initialContext : String) :
    stitchTokens (ts1 ++ ts2) initialContext =
      stitchTokens ts2 (stitchTokens ts1 initialContext) := by
  simp [stitchTokens, List.foldl_append]

end UtilsSmart

/-- C9: for every prefix `p`, token list `ts` and split point `k`,
stitching the first `k` tokens and then the rest gives the same text as
stitching all of `ts` at once — and likewise for any two-way split
`ts1 ++ ts2` — for each of the two shipped stitching strategies. -/
theorem stitchAll_split_incremental :
    ∀ (p : String) (ts : List String) (k : Nat),
      (UtilsConcat.stitchTokens (ts.drop k) (UtilsConcat.stitchTokens (ts.take k) p) =
        UtilsConcat.stitchTokens ts p) ∧
      (UtilsSmart.stitchTokens (ts.drop k) (UtilsSmart.stitchTokens (ts.take k) p) =
        UtilsSmart.stitchTokens ts p) ∧
      (∀ ts1 ts2 : List String,
        UtilsConcat.stitchTokens ts2 (UtilsConcat.stitchTokens ts1 p) =
          UtilsConcat.stitchTokens (ts1 ++ ts2) p) ∧
      (∀ ts1 ts2 : List String,
        UtilsSmart.stitchTokens ts2 (UtilsSmart.stitchTokens ts1 p) =
          UtilsSmart.stitchTokens (ts1 ++ ts2) p) := by
  intro p ts k
  refine ⟨?_, ?_, ?_, ?_⟩
  · rw [← UtilsConcat.stitchTokens_append, List.take_append_drop]
  · rw [← UtilsSmart.smart_stitchTokens_append, List.take_append_drop]
  · intro ts1 ts2
    rw [UtilsConcat.stitchTokens_append]
  · intro ts1 ts2
    rw [UtilsSmart.smart_stitchTokens_append]

/-- `GenerationData` of `src/app/page.tsx` (WheelPage variant): one
provider response, with a unique id, the chosen continuation tokens and
one candidate-probability map per position.  The probability values are
never inspected by the stepping logic, so they are carried as exact
rationals to keep every definition decidable. -/
structure GenerationData where
  id : Nat
  tokens : List String
  logprobsByPosition : List (List (String × Rat))
deriving DecidableEq

/-- The `type` field of an `UndoEntry`: `'normal' | 'ghost'`. -/
inductive UndoKind where
  | normal
  | ghost
deriving DecidableEq

/-- `UndoEntry` of `src/app/page.tsx`: the generation and position that
were current before the accepted token (normal) or confirmed divergence
(ghost) mutated the state. -/
structure UndoEntry where
  type : UndoKind
  previousGeneration : GenerationData
  previousPosition : Nat
deriving DecidableEq

namespace WheelPage

/-- `AppState` of the `WheelPage` component of `src/app/page.tsx`:
`loading | spinning | complete` — note that this page has no idle
variant. -/
inductive AppState where
  | loading
  | spinning (generation : GenerationData) (position : Nat)
  | complete
deriving DecidableEq

/-- The `type === 'spinning'` check used by the handlers. -/
def AppState.isSpinning : AppState → Bool
  | .spinning _ _ => true
  | _ => false

/-- `PendingRegeneration` of `src/app/page.tsx` (WheelPage): the single
speculative-regeneration slot.  The `promise` field of the source is
represented by an `Inflight.speculation` descriptor in the state's
in-flight list; the remaining fields are carried here verbatim. -/
structure PendingRegeneration where
  token : String
  newBuiltText : String
  newSelectedTokens : List String
  resolved : Bool
  result : Option GenerationData
  error : Option String
deriving DecidableEq

/-- A provider call that has been started but has not settled yet,
together with the data its continuation closure captured:

* `startGen` — the auto-generation effect awaiting `generate(prompt)`;
* `speculation token` — a `generateSpeculative` call started by
  `handleDivergingTokenClick`, whose `.then`/`.catch` updaters captured
  `token`;
* `awaitPending pending` — `handleTokenSelect` awaiting
  `pending.promise` after confirming a divergence whose speculation was
  still unresolved (the closure captured the whole `pending` value);
* `fallback newBuiltText newSelectedTokens` — the fresh `generate` call
  of the divergence fallback path, whose continuation captured the
  precomputed text and token list. -/
inductive Inflight where
  | startGen
  | speculation (token : String)
  | awaitPending (pending : PendingRegeneration)
  | fallback (newBuiltText : String) (newSelectedTokens : List String)
deriving DecidableEq

/-- The complete state of the `WheelPage` component: the React state
variables `prompt`, `builtText`, `selectedTokens`, `appState`, `error`,
`undoStack` and `pendingRegen`, plus the in-flight provider calls and a
count of provider calls started so far. -/
structure WheelState where
  prompt : String
  builtText : String
  selectedTokens : List String
  appState : AppState
  error : Option String
  undoStack : List UndoEntry
  pendingRegen : Option PendingRegeneration
  inflight : List Inflight
  calls : Nat
deriving DecidableEq

/-- The state of the wheel page right after its mount effect has loaded
the prompt from session storage: `builtText` is the prompt, nothing is
selected, and the page shows the loading state. -/
def initState (prompt : String) : WheelState :=
  { prompt := prompt
    builtText := prompt
    selectedTokens := []
    appState := .loading
    error := none
    undoStack := []
    pendingRegen := none
    inflight := []
    calls := 0 }

/-- The auto-generation effect: when a prompt is present, the page is
loading and nothing has been selected, it starts `generate(prompt)`
(which sets the loading state and clears the error before the fetch). -/
def autoGenerate (s : WheelState) : WheelState :=
  if s.prompt ≠ "" ∧ s.appState = .loading ∧ s.selectedTokens.length = 0 then
    { s with appState := .loading
             error := none
             inflight := .startGen :: s.inflight
             calls := s.calls + 1 }
  else s

/-- Settlement of the auto-generation call: on success the `.then`
continuation enters `spinning` at position 0; on failure `generate`'s
catch block stores the error message and returns null, so the
continuation does nothing further (in particular the app state is left
as it was). -/
def startGenSettle (s : WheelState) (outcome : Except String GenerationData) : WheelState :=
  match outcome with
  | .ok gen => { s with appState := .spinning gen 0 }
  | .error msg => { s with error := some msg }

/-- `handleDivergingTokenClick` of `src/app/page.tsx` (WheelPage): for a
diverging token in the spinning state, precompute the new text and token
list, start a speculative provider call, and store a fresh unresolved
`PendingRegeneration` entry.  No loading state is shown and no error is
cleared. -/
def handleDivergingTokenClick (s : WheelState) (token : String) : WheelState :=
  match s.appState with
  | .spinning gen position =>
    if gen.tokens[position]? = some token then s
    else
      let newSelectedTokens := s.selectedTokens ++ [token]
      let newBuiltText := UtilsConcat.stitchToken s.builtText token
      let pending : PendingRegeneration :=
        { token := token
          newBuiltText := newBuiltText
          newSelectedTokens := newSelectedTokens
          resolved := false
          result := none
          error := none }
      { s with pendingRegen := some pending
               inflight := .speculation token :: s.inflight
               calls := s.calls + 1 }
  | _ => s

/-- The `.then` updater of `handleDivergingTokenClick`: mark the entry
resolved with the result in place, but only if the currently tracked
entry still carries the same token; otherwise leave the slot as it is. -/
def specResolveUpdate (token : String) (result : GenerationData) :
    Option PendingRegeneration → Option PendingRegeneration
  | some current =>
    if current.token = token then
      some { current with resolved := true, result := some result, error := none }
    else some current
  | none => none

/-- The `.catch` updater of `handleDivergingTokenClick`: mark the entry
resolved with the error message in place, but only if the currently
tracked entry still carries the same token. -/
def specRejectUpdate (token : String) (msg : String) :
    Option PendingRegeneration → Option PendingRegeneration
  | some current =>
    if current.token = token then
      some { current with resolved := true, result := none, error := some msg }
    else some current
  | none => none

/-- Settlement of a speculative call: apply the `.then` or `.catch`
updater to the pending slot; nothing else in the state is touched. -/
def speculationSettle (s : WheelState) (token : String)
    (outcome : Except String GenerationData) : WheelState :=
  match outcome with
  | .ok result => { s with pendingRegen := specResolveUpdate token result s.pendingRegen }
  | .error msg => { s with pendingRegen := specRejectUpdate token msg s.pendingRegen }

/-- The divergence fallback path of `handleTokenSelect`: clear the
pending slot, precompute the new text and token list from the current
refs, and start a fresh `generate` call (which shows the loading state
and clears the error). -/
def fallbackStart (s : WheelState) (token : String) : WheelState :=
  let newSelectedTokens := s.selectedTokens ++ [token]
  let newBuiltText := UtilsConcat.stitchToken s.builtText token
  { s with pendingRegen := none
           appState := .loading
           error := none
           inflight := .fallback newBuiltText newSelectedTokens :: s.inflight
           calls := s.calls + 1 }

/-- The resolved-speculation branch of `handleTokenSelect`: the pending
slot is cleared; a stored error is surfaced and the app state is set to
`loading`; a stored result is adopted immediately together with the
precomputed text and token list. -/
def divergeResolved (s : WheelState) (pending : PendingRegeneration) : WheelState :=
  let s2 := { s with pendingRegen := none }
  match pending.error with
  | some msg => { s2 with error := some msg, appState := .loading }
  | none =>
    match pending.result with
    | some result =>
      { s2 with selectedTokens := pending.newSelectedTokens
                builtText := pending.newBuiltText
                appState := .spinning result 0 }
    | none => s2

/-- The dispatch of `handleTokenSelect`'s divergent branch on the
pending slot read at entry (`const pending = pendingRegenRef.current`):
adopt a resolved entry for the same token, await an unresolved one for
the same token, or fall back to a fresh call. -/
def divergeDispatch (s1 : WheelState) (token : String) :
    Option PendingRegeneration → WheelState
  | some pending =>
    if pending.token = token ∧ pending.resolved = true then
      divergeResolved s1 pending
    else if pending.token = token ∧ pending.resolved = false then
      { s1 with appState := .loading
                pendingRegen := none
                inflight := .awaitPending pending :: s1.inflight }
    else
      fallbackStart s1 token
  | none => fallbackStart s1 token

/-- The divergent branch of `handleTokenSelect`: push a ghost undo
entry, then dispatch on the pending speculation. -/
def divergeSelect (s : WheelState) (token : String)
    (gen : GenerationData) (position : Nat) : WheelState :=
  divergeDispatch
    { s with undoStack :=
        s.undoStack ++ [({ type := .ghost
                           previousGeneration := gen
                           previousPosition := position } : UndoEntry)] }
    token s.pendingRegen

/-- The accept branch of `handleTokenSelect`: push a normal undo entry,
append the chosen token, stitch it onto the built text, and either
complete or advance to the next position. -/
def acceptSelect (s : WheelState) (token : String)
    (gen : GenerationData) (position : Nat) : WheelState :=
  let s1 :=
    { s with undoStack :=
        s.undoStack ++ [({ type := .normal
                           previousGeneration := gen
                           previousPosition := position } : UndoEntry)]
             selectedTokens := s.selectedTokens ++ [token]
             builtText := UtilsConcat.stitchToken s.builtText token }
  if position + 1 ≥ gen.tokens.length then
    { s1 with appState := .complete }
  else
    { s1 with appState := .spinning gen (position + 1) }

/-- `handleTokenSelect` of `src/app/page.tsx` (WheelPage): a no-op
outside the spinning state; the accept branch when the token matches the
model's chosen token at the current position, and the divergent branch
otherwise. -/
def handleTokenSelect (s : WheelState) (token : String) : WheelState :=
  match s.appState with
  | .spinning gen position =>
    if gen.tokens[position]? = some token then
      acceptSelect s token gen position
    else
      divergeSelect s token gen position
  | _ => s

/-- Settlement of the awaited pending promise in `handleTokenSelect`'s
still-in-progress branch: on a non-null result, the captured
precomputed text and token list are committed and the new generation is
entered at position 0; on rejection only the error is stored. -/
def awaitPendingSettle (s : WheelState) (pending : PendingRegeneration)
    (outcome : Except String (Option GenerationData)) : WheelState :=
  match outcome with
  | .ok (some result) =>
    { s with selectedTokens := pending.newSelectedTokens
             builtText := pending.newBuiltText
             appState := .spinning result 0 }
  | .ok none => s
  | .error msg => { s with error := some msg }

/-- Settlement of the fallback `generate` call: on success the captured
text and token list are committed and the new generation is entered at
position 0; on failure `generate`'s catch block stores the error (the
app state stays as it was, i.e. loading). -/
def fallbackSettle (s : WheelState) (newBuiltText : String)
    (newSelectedTokens : List String)
    (outcome : Except String GenerationData) : WheelState :=
  match outcome with
  | .ok newGen =>
    { s with selectedTokens := newSelectedTokens
             builtText := newBuiltText
             appState := .spinning newGen 0 }
  | .error msg => { s with error := some msg }

/-- `handleUndo` of `src/app/page.tsx` (WheelPage): a no-op when the
undo stack or the selected-token list is empty; otherwise clears the
pending speculation, pops the last undo entry, drops the last selected
token, recomputes the built text from scratch and restores the stored
generation and position.  It makes no provider call. -/
def handleUndo (s : WheelState) : WheelState :=
  if s.undoStack.length = 0 ∨ s.selectedTokens.length = 0 then s
  else
    match s.undoStack.getLast? with
    | none => s
    | some entry =>
      let newUndoStack := s.undoStack.dropLast
      let newSelectedTokens := s.selectedTokens.dropLast
      let newBuiltText :=
        if newSelectedTokens.length > 0 then
          UtilsConcat.stitchTokens newSelectedTokens s.prompt
        else s.prompt
      { s with pendingRegen := none
               undoStack := newUndoStack
               selectedTokens := newSelectedTokens
               builtText := newBuiltText
               appState := .spinning entry.previousGeneration entry.previousPosition }

end WheelPage

namespace GhostHome

/-- `AppState` of the ghost-mode `Home` component of
`src/app/page.tsx`: `idle | loading | spinning | ghost | complete`. -/
inductive AppState where
  | idle
  | loading
  | spinning (generation : GenerationData) (position : Nat)
  | ghost (generation : GenerationData) (position : Nat) (ghostToken : String)
  | complete
deriving DecidableEq

/-- The `type === 'ghost'` check used by the handlers. -/
def AppState.isGhost : AppState → Bool
  | .ghost _ _ _ => true
  | _ => false

/-- The `type === 'spinning'` check used by the handlers. -/
def AppState.isSpinning : AppState → Bool
  | .spinning _ _ => true
  | _ => false

/-- The state of the ghost-mode `Home` component: the React state
variables plus a count of provider calls started so far.  This variant
keeps no speculation slot. -/
structure HomeState where
  prompt : String
  builtText : String
  selectedTokens : List String
  appState : AppState
  error : Option String
  undoStack : List UndoEntry
  calls : Nat
deriving DecidableEq

/-- The synchronous start of `generate` in the ghost-mode page: show the
loading state, clear the error, and issue the provider call. -/
def generateBegin (s : HomeState) : HomeState :=
  { s with appState := .loading, error := none, calls := s.calls + 1 }

/-- `handleStart` of the ghost-mode page up to its `await`: a no-op for
a blank prompt, otherwise `generate(prompt)` begins. -/
def handleStartBegin (s : HomeState) : HomeState :=
  if s.prompt.trim = "" then s else generateBegin s

/-- Settlement of the `handleStart` call: on success the built text is
reset to the prompt, the selections and the undo stack are cleared, and
the page enters `spinning` at position 0; on failure `generate`'s catch
block stores the error and returns to `idle`, and no generation is
retained. -/
def handleStartSettle (s : HomeState) (outcome : Except String GenerationData) : HomeState :=
  match outcome with
  | .ok gen =>
    { s with builtText := s.prompt
             selectedTokens := []
             undoStack := []
             appState := .spinning gen 0 }
  | .error msg => { s with error := some msg, appState := .idle }

/-- `handleTokenSelect` of the ghost-mode page: a no-op outside
spinning; accepting the chosen token pushes a normal undo entry and
advances (or completes), while a diverging token only enters the ghost
state. -/
def handleTokenSelect (s : HomeState) (token : String) : HomeState :=
  match s.appState with
  | .spinning gen position =>
    if gen.tokens[position]? = some token then
      let s1 :=
        { s with undoStack :=
            s.undoStack ++ [({ type := .normal
                               previousGeneration := gen
                               previousPosition := position } : UndoEntry)]
                 selectedTokens := s.selectedTokens ++ [token]
                 builtText := UtilsConcat.stitchToken s.builtText token }
      if position + 1 ≥ gen.tokens.length then
        { s1 with appState := .complete }
      else
        { s1 with appState := .spinning gen (position + 1) }
    else
      { s with appState := .ghost gen position token }
  | _ => s

/-- `handleGhostConfirm` of the ghost-mode page up to its `await`: a
no-op outside the ghost state; otherwise a ghost undo entry is pushed
and a `generate` call for the extended text begins. -/
def handleGhostConfirm (s : HomeState) : HomeState :=
  match s.appState with
  | .ghost gen position _ghostToken =>
    let s1 :=
      { s with undoStack :=
          s.undoStack ++ [({ type := .ghost
                             previousGeneration := gen
                             previousPosition := position } : UndoEntry)] }
    generateBegin s1
  | _ => s

/-- `handleGhostCancel` of the ghost-mode page: a no-op outside the
ghost state; otherwise returns to spinning at the same generation and
position, discarding the ghost token and leaving the undo log alone. -/
def handleGhostCancel (s : HomeState) : HomeState :=
  match s.appState with
  | .ghost gen position _ghostToken => { s with appState := .spinning gen position }
  | _ => s

/-- The non-ghost part of `handleUndo` of the ghost-mode page: a no-op
when the undo stack or the selected-token list is empty, otherwise the
usual pop-and-restore with the built text recomputed from scratch. -/
def handleUndoCore (s : HomeState) : HomeState :=
  if s.undoStack.length = 0 ∨ s.selectedTokens.length = 0 then s
  else
    match s.undoStack.getLast? with
    | none => s
    | some entry =>
      let newUndoStack := s.undoStack.dropLast
      let newSelectedTokens := s.selectedTokens.dropLast
      let newBuiltText :=
        if newSelectedTokens.length > 0 then
          UtilsConcat.stitchTokens newSelectedTokens s.prompt
        else s.prompt
      { s with undoStack := newUndoStack
               selectedTokens := newSelectedTokens
               builtText := newBuiltText
               appState := .spinning entry.previousGeneration entry.previousPosition }

/-- `handleUndo` of the ghost-mode page: in the ghost state it only
cancels the ghost (no token is undone); otherwise it behaves as
`handleUndoCore`. -/
def handleUndo (s : HomeState) : HomeState :=
  match s.appState with
  | .ghost gen position _ghostToken => { s with appState := .spinning gen position }
  | _ => handleUndoCore s

end GhostHome

namespace WheelPage

/-- Consistency of a speculation slot with the original prompt: the
precomputed text is the stitch of the precomputed token list onto the
prompt. -/
def pendingOK (prompt : String) (p : PendingRegeneration) : Prop :=
  p.newBuiltText = UtilsConcat.stitchTokens p.newSelectedTokens prompt

/-- Consistency of the data captured by an in-flight continuation. -/
def inflightOK (prompt : String) : Inflight → Prop
  | .awaitPending pending => pendingOK prompt pending
  | .fallback newBuiltText newSelectedTokens =>
      newBuiltText = UtilsConcat.stitchTokens newSelectedTokens prompt
  | _ => True

/-- The inductive invariant of the wheel page: the cached built text is
the stitch of the selected tokens onto the prompt, and every
precomputed (text, tokens) pair still in flight — in the speculation
slot or captured by a pending continuation — satisfies the same
equation. -/
structure Inv (s : WheelState) : Prop where
  built_eq : s.builtText = UtilsConcat.stitchTokens s.selectedTokens s.prompt
  pending_ok : ∀ p, s.pendingRegen = some p → pendingOK s.prompt p
  inflight_ok : ∀ d ∈ s.inflight, inflightOK s.prompt d

/-- One atomic transition of the wheel page: either a synchronous
handler segment, or the settlement continuation of a call that is
actually in flight. -/
inductive Step : WheelState → WheelState → Prop where
  | autoGen (s : WheelState) : Step s (autoGenerate s)
  | startSettle (s : WheelState) (outcome : Except String GenerationData)
      (h : Inflight.startGen ∈ s.inflight) :
      Step s (startGenSettle { s with inflight := s.inflight.erase .startGen } outcome)
  | divergingClick (s : WheelState) (token : String) :
      Step s (handleDivergingTokenClick s token)
  | specSettle (s : WheelState) (token : String)
      (outcome : Except String GenerationData)
      (h : Inflight.speculation token ∈ s.inflight) :
      Step s (speculationSettle
        { s with inflight := s.inflight.erase (.speculation token) } token outcome)
  | tokenSelect (s : WheelState) (token : String) :
      Step s (handleTokenSelect s token)
  | awaitSettle (s : WheelState) (pending : PendingRegeneration)
      (outcome : Except String (Option GenerationData))
      (h : Inflight.awaitPending pending ∈ s.inflight) :
      Step s (awaitPendingSettle
        { s with inflight := s.inflight.erase (.awaitPending pending) } pending outcome)
  | fallbackDone (s : WheelState) (newBuiltText : String)
      (newSelectedTokens : List String)
      (outcome : Except String GenerationData)
      (h : Inflight.fallback newBuiltText newSelectedTokens ∈ s.inflight) :
      Step s (fallbackSettle
        { s with inflight := s.inflight.erase (.fallback newBuiltText newSelectedTokens) }
        newBuiltText newSelectedTokens outcome)
  | undo (s : WheelState) : Step s (handleUndo s)

/-- The states the wheel page can actually be in: the freshly mounted
state for some prompt, closed under the transitions. -/
inductive Reachable : WheelState → Prop where
  | init (prompt : String) : Reachable (initState prompt)
  | step {s t : WheelState} : Reachable s → Step s t → Reachable t

theorem inv_initState (prompt : String) : Inv (initState prompt) := by
  refine ⟨rfl, ?_, ?_⟩
  · intro p hp
    simp [initState] at hp
  · intro d hd
    simp [initState] at hd

theorem inv_erase (s : WheelState) (d : Inflight) (h : Inv s) :
    Inv { s with inflight := s.inflight.erase d } := by
  refine ⟨h.built_eq, h.pending_ok, ?_⟩
  intro d2 hd2
  exact h.inflight_ok d2 (List.mem_of_mem_erase hd2)

theorem inv_autoGenerate (s : WheelState) (h : Inv s) : Inv (autoGenerate s) := by
  unfold autoGenerate
  split
  · refine ⟨h.built_eq, h.pending_ok, ?_⟩
    intro d hd
    rcases List.mem_cons.mp hd with rfl | hd2
    · trivial
    · exact h.inflight_ok d hd2
  · exact h

theorem inv_startGenSettle (s : WheelState) (outcome : Except String GenerationData)
    (h : Inv s) : Inv (startGenSettle s outcome) := by
  cases outcome with
  | ok gen => exact ⟨h.built_eq, h.pending_ok, h.inflight_ok⟩
  | error msg => exact ⟨h.built_eq, h.pending_ok, h.inflight_ok⟩

theorem inv_handleDivergingTokenClick (s : WheelState) (token : String)
    (h : Inv s) : Inv (handleDivergingTokenClick s token) := by
  cases hA : s.appState with
  | loading => simpa [handleDivergingTokenClick, hA] using h
  | complete => simpa [handleDivergingTokenClick, hA] using h
  | spinning gen position =>
    simp only [handleDivergingTokenClick, hA]
    split
    · exact h
    · refine ⟨h.built_eq, ?_, ?_⟩
      · intro p hp
        obtain rfl := Option.some.inj hp
        show UtilsConcat.stitchToken s.builtText token =
          UtilsConcat.stitchTokens (s.selectedTokens ++ [token]) s.prompt
        rw [UtilsConcat.stitchTokens_concat, ← h.built_eq]
      · intro d hd
        rcases List.mem_cons.mp hd with rfl | hd2
        · trivial
        · exact h.inflight_ok d hd2

theorem specResolveUpdate_ok (prompt : String) (token : String)
    (result : GenerationData) (po : Option PendingRegeneration)
    (hpo : ∀ p, po = some p → pendingOK prompt p) :
    ∀ p, specResolveUpdate token result po = some p → pendingOK prompt p := by
  intro p hp
  cases po with
  | none => cases hp
  | some current =>
    simp only [specResolveUpdate] at hp
    split at hp
    · obtain rfl := Option.some.inj hp
      exact hpo current rfl
    · obtain rfl := Option.some.inj hp
      exact hpo current rfl

theorem specRejectUpdate_ok (prompt : String) (token : String)
    (msg : String) (po : Option PendingRegeneration)
    (hpo : ∀ p, po = some p → pendingOK prompt p) :
    ∀ p, specRejectUpdate token msg po = some p → pendingOK prompt p := by
  intro p hp
  cases po with
  | none => cases hp
  | some current =>
    simp only [specRejectUpdate] at hp
    split at hp
    · obtain rfl := Option.some.inj hp
      exact hpo current rfl
    · obtain rfl := Option.some.inj hp
      exact hpo current rfl

theorem inv_speculationSettle (s : WheelState) (token : String)
    (outcome : Except String GenerationData) (h : Inv s) :
    Inv (speculationSettle s token outcome) := by
  cases outcome with
  | ok result =>
    exact ⟨h.built_eq, specResolveUpdate_ok s.prompt token result s.pendingRegen h.pending_ok,
      h.inflight_ok⟩
  | error msg =>
    exact ⟨h.built_eq, specRejectUpdate_ok s.prompt token msg s.pendingRegen h.pending_ok,
      h.inflight_ok⟩

theorem inv_fallbackStart (s : WheelState) (token : String) (h : Inv s) :
    Inv (fallbackStart s token) := by
  refine ⟨h.built_eq, ?_, ?_⟩
  · intro p hp
    cases hp
  · intro d hd
    rcases List.mem_cons.mp hd with rfl | hd2
    · show UtilsConcat.stitchToken s.builtText token =
        UtilsConcat.stitchTokens (s.selectedTokens ++ [token]) s.prompt
      rw [UtilsConcat.stitchTokens_concat, ← h.built_eq]
    · exact h.inflight_ok d hd2

theorem inv_divergeResolved (s : WheelState) (pending : PendingRegeneration)
    (h : Inv s) (hp : pendingOK s.prompt pending) : Inv (divergeResolved s pending) := by
  unfold divergeResolved
  cases hE : pending.error with
  | some msg =>
    exact ⟨h.built_eq, (fun p hp2 => by cases hp2), h.inflight_ok⟩
  | none =>
    cases hR : pending.result with
    | some result =>
      exact ⟨hp, (fun p hp2 => by cases hp2), h.inflight_ok⟩
    | none =>
      exact ⟨h.built_eq, (fun p hp2 => by cases hp2), h.inflight_ok⟩

theorem inv_divergeDispatch (s1 : WheelState) (token : String)
    (po : Option PendingRegeneration) (h1 : Inv s1)
    (hpo : ∀ p, po = some p → pendingOK s1.prompt p) :
    Inv (divergeDispatch s1 token po) := by
  cases po with
  | none => exact inv_fallbackStart s1 token h1
  | some pending =>
    have hpend := hpo pending rfl
    simp only [divergeDispatch]
    split
    · exact inv_divergeResolved s1 pending h1 hpend
    · split
      · refine ⟨h1.built_eq, ?_, ?_⟩
        · intro p hp2
          cases hp2
        · intro d hd
          rcases List.mem_cons.mp hd with rfl | hd2
          · exact hpend
          · exact h1.inflight_ok d hd2
      · exact inv_fallbackStart s1 token h1

theorem inv_divergeSelect (s : WheelState) (token : String)
    (gen : GenerationData) (position : Nat) (h : Inv s) :
    Inv (divergeSelect s token gen position) := by
  unfold divergeSelect
  exact inv_divergeDispatch _ token s.pendingRegen
    ⟨h.built_eq, h.pending_ok, h.inflight_ok⟩
    (fun p hp2 => h.pending_ok p hp2)

theorem inv_acceptSelect (s : WheelState) (token : String)
    (gen : GenerationData) (position : Nat) (h : Inv s) :
    Inv (acceptSelect s token gen position) := by
  have hbuilt : UtilsConcat.stitchToken s.builtText token =
      UtilsConcat.stitchTokens (s.selectedTokens ++ [token]) s.prompt := by
    rw [UtilsConcat.stitchTokens_concat, ← h.built_eq]
  unfold acceptSelect
  split
  · exact ⟨hbuilt, h.pending_ok, h.inflight_ok⟩
  · exact ⟨hbuilt, h.pending_ok, h.inflight_ok⟩

theorem inv_handleTokenSelect (s : WheelState) (token : String) (h : Inv s) :
    Inv (handleTokenSelect s token) := by
  cases hA : s.appState with
  | loading => simpa [handleTokenSelect, hA] using h
  | complete => simpa [handleTokenSelect, hA] using h
  | spinning gen position =>
    simp only [handleTokenSelect, hA]
    split
    · exact inv_acceptSelect s token gen position h
    · exact inv_divergeSelect s token gen position h

theorem inv_awaitPendingSettle (s : WheelState) (pending : PendingRegeneration)
    (outcome : Except String (Option GenerationData)) (h : Inv s)
    (hp : pendingOK s.prompt pending) : Inv (awaitPendingSettle s pending outcome) := by
  cases outcome with
  | ok r =>
    cases r with
    | some result => exact ⟨hp, h.pending_ok, h.inflight_ok⟩
    | none => exact h
  | error msg => exact ⟨h.built_eq, h.pending_ok, h.inflight_ok⟩

theorem inv_fallbackSettle (s : WheelState) (newBuiltText : String)
    (newSelectedTokens : List String) (outcome : Except String GenerationData)
    (h : Inv s)
    (hcap : newBuiltText = UtilsConcat.stitchTokens newSelectedTokens s.prompt) :
    Inv (fallbackSettle s newBuiltText newSelectedTokens outcome) := by
  cases outcome with
  | ok newGen => exact ⟨hcap, h.pending_ok, h.inflight_ok⟩
  | error msg => exact ⟨h.built_eq, h.pending_ok, h.inflight_ok⟩

theorem inv_handleUndo (s : WheelState) (h : Inv s) : Inv (handleUndo s) := by
  unfold handleUndo
  split
  · exact h
  · cases hL : s.undoStack.getLast? with
    | none => exact h
    | some entry =>
      simp only [hL]
      refine ⟨?_, ?_, h.inflight_ok⟩
      · show (if s.selectedTokens.dropLast.length > 0 then
            UtilsConcat.stitchTokens s.selectedTokens.dropLast s.prompt
          else s.prompt) = UtilsConcat.stitchTokens s.selectedTokens.dropLast s.prompt
        split
        · rfl
        · rename_i hguard hlen
          have hnil : s.selectedTokens.dropLast = [] :=
            List.length_eq_zero.mp (Nat.eq_zero_of_not_pos hlen)
          rw [hnil]
          rfl
      · intro p hp
        cases hp

/-- Every reachable wheel-page state satisfies the invariant. -/
theorem inv_of_reachable {s : WheelState} (h : Reachable s) : Inv s := by
  induction h with
  | init prompt => exact inv_initState prompt
  | step hr hstep ih =>
    cases hstep with
    | autoGen => exact inv_autoGenerate _ ih
    | startSettle outcome hmem =>
      exact inv_startGenSettle _ outcome (inv_erase _ _ ih)
    | divergingClick token => exact inv_handleDivergingTokenClick _ token ih
    | specSettle token outcome hmem =>
      exact inv_speculationSettle _ token outcome (inv_erase _ _ ih)
    | tokenSelect token => exact inv_handleTokenSelect _ token ih
    | awaitSettle pending outcome hmem =>
      exact inv_awaitPendingSettle _ pending outcome (inv_erase _ _ ih)
        (ih.inflight_ok _ hmem)
    | fallbackDone newBuiltText newSelectedTokens outcome hmem =>
      exact inv_fallbackSettle _ newBuiltText newSelectedTokens outcome
        (inv_erase _ _ ih) (ih.inflight_ok _ hmem)
    | undo => exact inv_handleUndo _ ih

end WheelPage

namespace WheelPage

/-- Reducing the accept path of `handleTokenSelect` when the state is
spinning and the clicked token is the model's chosen token. -/
theorem handleTokenSelect_accept (s : WheelState) (gen : GenerationData)
    (position : Nat) (token : String)
    (hA : s.appState = AppState.spinning gen position)
    (hT : gen.tokens[position]? = some token) :
    handleTokenSelect s token = acceptSelect s token gen position := by
  simp only [handleTokenSelect, hA]
  rw [if_pos hT]

/-- Replacing the pending slot by its current value is the identity. -/
theorem set_pendingRegen_self (s : WheelState) (v : Option PendingRegeneration)
    (hv : s.pendingRegen = v) : { s with pendingRegen := v } = s := by
  cases s
  cases hv
  rfl

/-- `handleUndo` on a state whose undo stack and selected tokens both
end in one pushed element pops exactly those elements. -/
theorem handleUndo_concat (s : WheelState) (base : List UndoEntry)
    (entry : UndoEntry) (baseSel : List String) (tok : String)
    (hU : s.undoStack = base ++ [entry])
    (hS : s.selectedTokens = baseSel ++ [tok]) :
    handleUndo s =
      { s with pendingRegen := none
               undoStack := base
               selectedTokens := baseSel
               builtText :=
                 if baseSel.length > 0 then
                   UtilsConcat.stitchTokens baseSel s.prompt
                 else s.prompt
               appState := .spinning entry.previousGeneration entry.previousPosition } := by
  unfold handleUndo
  rw [hU, hS]
  rw [if_neg (by simp)]
  rw [List.getLast?_concat]
  rw [List.dropLast_concat]
  rw [List.dropLast_concat]

/-- Recomputing the built text from the selected tokens gives back the
cached built text on any state satisfying the invariant. -/
theorem builtText_recompute (s : WheelState) (hinv : Inv s) :
    (if s.selectedTokens.length > 0 then
        UtilsConcat.stitchTokens s.selectedTokens s.prompt
      else s.prompt) = s.builtText := by
  split
  · exact hinv.built_eq.symm
  · rename_i hlen
    have hnil : s.selectedTokens = [] :=
      List.length_eq_zero.mp (Nat.eq_zero_of_not_pos hlen)
    rw [hinv.built_eq, hnil]
    rfl

end WheelPage

/-- A concrete provider response used to exercise the machine. -/
def genCat : GenerationData :=
  { id := 1
    tokens := [" mat", "."]
    logprobsByPosition :=
      [[(" mat", mkRat 3 5), (" floor", mkRat 2 5)], [(".", mkRat 1 1)]] }

/-- The wheel page as mounted with the scenario prompt. -/
def wheelInit : WheelPage.WheelState := WheelPage.initState "The cat sat on the"

/-- The wheel page after the auto-generation effect started the first
provider call. -/
def wheelLoading : WheelPage.WheelState := WheelPage.autoGenerate wheelInit

/-- The wheel page after the first call succeeded with `genCat`. -/
def wheelSpin : WheelPage.WheelState :=
  WheelPage.startGenSettle
    { wheelLoading with inflight := wheelLoading.inflight.erase WheelPage.Inflight.startGen }
    (Except.ok genCat)

theorem wheelSpin_reachable : WheelPage.Reachable wheelSpin :=
  WheelPage.Reachable.step
    (WheelPage.Reachable.step (WheelPage.Reachable.init "The cat sat on the")
      (WheelPage.Step.autoGen wheelInit))
    (WheelPage.Step.startSettle wheelLoading (Except.ok genCat) (by decide))

/-- C1: in every reachable state of the wheel page — hence in
particular after every `acceptCurrent` / `selectToken` /
`confirmDivergence` / `undo` transition, all of which are steps of the
reachability relation — the cached `builtText` equals
`stitchTokens(selectedTokens, prompt)`, the stitch of the accepted
tokens onto the original starting prompt. -/
theorem builtText_eq_stitchAll_of_reachable {s : WheelPage.WheelState}
    (h : WheelPage.Reachable s) :
    s.builtText = UtilsConcat.stitchTokens s.selectedTokens s.prompt :=
  (WheelPage.inv_of_reachable h).built_eq

theorem builtText_eq_stitchAll_witness :
    (WheelPage.handleTokenSelect wheelSpin " mat").builtText =
      UtilsConcat.stitchTokens
        (WheelPage.handleTokenSelect wheelSpin " mat").selectedTokens
        (WheelPage.handleTokenSelect wheelSpin " mat").prompt :=
  builtText_eq_stitchAll_of_reachable
    (WheelPage.Reachable.step wheelSpin_reachable
      (WheelPage.Step.tokenSelect wheelSpin " mat"))

/-- C7: from any reachable spinning state, accepting the model's chosen
token (the `acceptCurrent` path of `handleTokenSelect`, which pushes the
normal undo entry) followed by `handleUndo` restores exactly the prior
generation, position, accepted-token list, built text and undo stack,
and the undo performs zero provider calls. -/
theorem undo_after_accept_restores {s : WheelPage.WheelState}
    (hreach : WheelPage.Reachable s) (gen : GenerationData) (position : Nat)
    (token : String)
    (hA : s.appState = WheelPage.AppState.spinning gen position)
    (hT : gen.tokens[position]? = some token) :
    (WheelPage.handleUndo (WheelPage.handleTokenSelect s token)).appState =
        WheelPage.AppState.spinning gen position ∧
    (WheelPage.handleUndo (WheelPage.handleTokenSelect s token)).selectedTokens =
        s.selectedTokens ∧
    (WheelPage.handleUndo (WheelPage.handleTokenSelect s token)).builtText =
        s.builtText ∧
    (WheelPage.handleUndo (WheelPage.handleTokenSelect s token)).undoStack =
        s.undoStack ∧
    (WheelPage.handleUndo (WheelPage.handleTokenSelect s token)).calls =
        (WheelPage.handleTokenSelect s token).calls := by
  have hinv := WheelPage.inv_of_reachable hreach
  rw [WheelPage.handleTokenSelect_accept s gen position token hA hT]
  unfold WheelPage.acceptSelect
  split
  · rw [WheelPage.handleUndo_concat _ s.undoStack _ s.selectedTokens token rfl rfl]
    refine ⟨rfl, rfl, ?_, rfl, rfl⟩
    exact WheelPage.builtText_recompute s hinv
  · rw [WheelPage.handleUndo_concat _ s.undoStack _ s.selectedTokens token rfl rfl]
    refine ⟨rfl, rfl, ?_, rfl, rfl⟩
    exact WheelPage.builtText_recompute s hinv

theorem undo_after_accept_restores_witness :
    (WheelPage.handleUndo (WheelPage.handleTokenSelect wheelSpin " mat")).appState =
        WheelPage.AppState.spinning genCat 0 ∧
    (WheelPage.handleUndo (WheelPage.handleTokenSelect wheelSpin " mat")).selectedTokens =
        wheelSpin.selectedTokens ∧
    (WheelPage.handleUndo (WheelPage.handleTokenSelect wheelSpin " mat")).builtText =
        wheelSpin.builtText ∧
    (WheelPage.handleUndo (WheelPage.handleTokenSelect wheelSpin " mat")).undoStack =
        wheelSpin.undoStack ∧
    (WheelPage.handleUndo (WheelPage.handleTokenSelect wheelSpin " mat")).calls =
        (WheelPage.handleTokenSelect wheelSpin " mat").calls :=
  undo_after_accept_restores wheelSpin_reachable genCat 0 " mat" rfl rfl

/-- Modelled from the spec (§4.2, `acceptCurrent`): let
`t = generation.tokens[position]`; push `UndoEntry(Normal, generation,
position)`; append `t` to the accepted tokens and stitch it onto the
prefix text; if `position+1 == length(tokens)` go to `Complete`, else to
`Stepping(generation, position+1)`.  This is the reference definition
for the refinement claim C8, to be compared with the source's
`handleTokenSelect`. -/
def acceptCurrentSpec (s : WheelPage.WheelState) : WheelPage.WheelState :=
  match s.appState with
  | .spinning gen position =>
    match gen.tokens[position]? with
    | some t =>
      let s1 :=
        { s with undoStack :=
            s.undoStack ++ [({ type := .normal
                               previousGeneration := gen
                               previousPosition := position } : UndoEntry)]
                 selectedTokens := s.selectedTokens ++ [t]
                 builtText := UtilsConcat.stitchToken s.builtText t }
      if position + 1 = gen.tokens.length then
        { s1 with appState := .complete }
      else
        { s1 with appState := .spinning gen (position + 1) }
    | none => s
  | _ => s

/-- C8: in any spinning state, selecting the token that equals
`generation.tokens[position]` produces exactly the same state as the
spec's `acceptCurrent` — the same accepted-token list, built text,
undo-log entry and successor state (`Stepping` at `position+1` or
`Complete`). -/
theorem selectToken_chosen_eq_acceptCurrent (s : WheelPage.WheelState)
    (gen : GenerationData) (position : Nat) (token : String)
    (hA : s.appState = WheelPage.AppState.spinning gen position)
    (hT : gen.tokens[position]? = some token) :
    WheelPage.handleTokenSelect s token = acceptCurrentSpec s := by
  have hlt : position < gen.tokens.length := (List.getElem?_eq_some.mp hT).1
  rw [WheelPage.handleTokenSelect_accept s gen position token hA hT]
  simp only [acceptCurrentSpec, hA, hT]
  simp only [WheelPage.acceptSelect]
  by_cases hend : position + 1 = gen.tokens.length
  · rw [if_pos (show position + 1 ≥ gen.tokens.length from hend.ge), if_pos hend]
  · have hne : ¬ position + 1 ≥ gen.tokens.length :=
      Nat.not_le.mpr (Nat.lt_of_le_of_ne (Nat.succ_le_of_lt hlt) hend)
    rw [if_neg hne, if_neg hend]

theorem selectToken_chosen_eq_acceptCurrent_witness :
    WheelPage.handleTokenSelect wheelSpin " mat" = acceptCurrentSpec wheelSpin :=
  selectToken_chosen_eq_acceptCurrent wheelSpin genCat 0 " mat" rfl rfl

/-- A successful provider response carrying zero tokens. -/
def genEmpty : GenerationData :=
  { id := 2, tokens := [], logprobsByPosition := [] }

/-- The ghost-mode home page in its initial idle state with the
scenario prompt. -/
def ghostHome0 : GhostHome.HomeState :=
  { prompt := "The cat sat on the"
    builtText := ""
    selectedTokens := []
    appState := .idle
    error := none
    undoStack := []
    calls := 0 }

/-- C2 counterexample: a successful start whose response has zero
tokens leaves both session variants in the `spinning` (Stepping) state
at position 0, not in `Complete`. -/
theorem start_empty_tokens_cex :
    (WheelPage.startGenSettle
        { wheelLoading with
            inflight := wheelLoading.inflight.erase WheelPage.Inflight.startGen }
        (Except.ok genEmpty)).appState = WheelPage.AppState.spinning genEmpty 0 ∧
    ¬ (WheelPage.startGenSettle
        { wheelLoading with
            inflight := wheelLoading.inflight.erase WheelPage.Inflight.startGen }
        (Except.ok genEmpty)).appState = WheelPage.AppState.complete ∧
    (GhostHome.handleStartSettle (GhostHome.handleStartBegin ghostHome0)
        (Except.ok genEmpty)).appState = GhostHome.AppState.spinning genEmpty 0 ∧
    ¬ (GhostHome.handleStartSettle (GhostHome.handleStartBegin ghostHome0)
        (Except.ok genEmpty)).appState = GhostHome.AppState.complete := by
  refine ⟨rfl, ?_, rfl, ?_⟩
  · decide
  · decide

/-- C2 amended: on every successful start — including a response with
zero tokens — the session enters the Stepping state at position 0 with
an empty accepted-token list; no immediate transition to `Complete` is
performed (completion is only reached later through the accept path). -/
theorem start_success_always_stepping :
    ∀ (s : WheelPage.WheelState) (t : GhostHome.HomeState) (gen : GenerationData),
      (WheelPage.startGenSettle s (Except.ok gen)).appState =
          WheelPage.AppState.spinning gen 0 ∧
      (GhostHome.handleStartSettle t (Except.ok gen)).appState =
          GhostHome.AppState.spinning gen 0 ∧
      (GhostHome.handleStartSettle t (Except.ok gen)).selectedTokens = [] :=
  fun _ _ _ => ⟨rfl, rfl, rfl⟩

/-- C4 counterexample: on the wheel page a failed start stores the
error but leaves the app state as `loading` — the page has no idle
variant, so the session does not transition to Idle. -/
theorem start_failure_not_idle_cex :
    (WheelPage.startGenSettle
        { wheelLoading with
            inflight := wheelLoading.inflight.erase WheelPage.Inflight.startGen }
        (Except.error "Generation failed")).appState = WheelPage.AppState.loading ∧
    (WheelPage.startGenSettle
        { wheelLoading with
            inflight := wheelLoading.inflight.erase WheelPage.Inflight.startGen }
        (Except.error "Generation failed")).error = some "Generation failed" := by
  exact ⟨rfl, rfl⟩

/-- C4 amended: when the start call fails, the ghost-mode page stores
the error and returns to `idle` (retaining no generation), while the
wheel page only stores the error and keeps its current app state
(`loading` during a start), because its `generate` never resets the app
state on failure and the page has no idle variant. -/
theorem start_failure_stores_error :
    ∀ (s : GhostHome.HomeState) (msg : String),
      (GhostHome.handleStartSettle s (Except.error msg) =
        { s with error := some msg, appState := GhostHome.AppState.idle }) ∧
      ∀ (w : WheelPage.WheelState) (msg2 : String),
        WheelPage.startGenSettle w (Except.error msg2) = { w with error := some msg2 } :=
  fun _ _ => ⟨rfl, fun _ _ => rfl⟩

/-- The wheel page after the user signalled the divergent candidate
`" floor"`: a speculative call is in flight and the pending slot holds
an unresolved entry for it. -/
def wheelFloorClick : WheelPage.WheelState :=
  WheelPage.handleDivergingTokenClick wheelSpin " floor"

/-- The wheel page after that speculative call settled with an error:
the pending entry for `" floor"` is resolved with the error stored. -/
def wheelFloorErr : WheelPage.WheelState :=
  WheelPage.speculationSettle
    { wheelFloorClick with
        inflight := wheelFloorClick.inflight.erase (WheelPage.Inflight.speculation " floor") }
    " floor" (Except.error "boom")

/-- C3 counterexample: confirming the divergence whose speculation
resolved with an error surfaces the error and sets the app state to
`loading` — a Loading state, not Idle (the wheel page has no idle
variant at all). -/
theorem confirm_resolvedError_not_idle_cex :
    (WheelPage.handleTokenSelect wheelFloorErr " floor").appState =
        WheelPage.AppState.loading ∧
    (WheelPage.handleTokenSelect wheelFloorErr " floor").error = some "boom" := by
  refine ⟨?_, ?_⟩
  · decide
  · decide

/-- C3 amended: when the pending speculation for the confirmed
divergent token has resolved with an error, `handleTokenSelect` pushes
the ghost undo entry, clears the pending slot, stores the error for
display and transitions to `loading` (the wheel page has no Idle
variant); the accepted tokens and built text are left unchanged, and
the error was not surfaced before this confirmation. -/
theorem confirm_resolvedError_surfaces_and_loads (s : WheelPage.WheelState)
    (gen : GenerationData) (position : Nat) (token : String)
    (p : WheelPage.PendingRegeneration) (msg : String)
    (hA : s.appState = WheelPage.AppState.spinning gen position)
    (hT : ¬ gen.tokens[position]? = some token)
    (hP : s.pendingRegen = some p)
    (htok : p.token = token) (hres : p.resolved = true) (herr : p.error = some msg) :
    WheelPage.handleTokenSelect s token =
      { s with
          undoStack := s.undoStack ++ [({ type := .ghost
                                          previousGeneration := gen
                                          previousPosition := position } : UndoEntry)]
          pendingRegen := none
          error := some msg
          appState := WheelPage.AppState.loading } := by
  simp only [WheelPage.handleTokenSelect, hA]
  rw [if_neg hT]
  unfold WheelPage.divergeSelect
  rw [hP]
  simp only [WheelPage.divergeDispatch]
  rw [if_pos ⟨htok, hres⟩]
  unfold WheelPage.divergeResolved
  rw [herr]

/-- The concrete resolved-with-error pending entry of `wheelFloorErr`. -/
def pFloorErr : WheelPage.PendingRegeneration :=
  { token := " floor"
    newBuiltText := "The cat sat on the floor"
    newSelectedTokens := [" floor"]
    resolved := true
    result := none
    error := some "boom" }

theorem confirm_resolvedError_surfaces_and_loads_witness :
    WheelPage.handleTokenSelect wheelFloorErr " floor" =
      { wheelFloorErr with
          undoStack := wheelFloorErr.undoStack ++
            [({ type := .ghost
                previousGeneration := genCat
                previousPosition := 0 } : UndoEntry)]
          pendingRegen := none
          error := some "boom"
          appState := WheelPage.AppState.loading } :=
  confirm_resolvedError_surfaces_and_loads wheelFloorErr genCat 0 " floor" pFloorErr "boom"
    rfl (by decide) (by decide) rfl rfl rfl

/-- C5 counterexample: with an unresolved pending speculation already
held for `" floor"`, a second diverging click on the very same token
starts another provider call (the call count rises from 2 to 3) instead
of reusing the in-flight one. -/
theorem divergingClick_same_token_duplicates_cex :
    wheelFloorClick.pendingRegen.map (fun p => (p.token, p.resolved)) =
        some (" floor", false) ∧
    wheelFloorClick.calls = 2 ∧
    (WheelPage.handleDivergingTokenClick wheelFloorClick " floor").calls = 3 := by
  refine ⟨?_, ?_, ?_⟩
  · decide
  · decide
  · decide

/-- C5 amended: every diverging click — whether or not an entry for the
same token is already pending — starts a fresh provider call and
replaces the pending slot with a new unresolved entry for the clicked
token; in particular a pending entry for a different token is abandoned
and replaced, but a pending entry for the same token is also replaced
rather than reused. -/
theorem divergingClick_always_starts_fresh_call (s : WheelPage.WheelState)
    (gen : GenerationData) (position : Nat) (token : String)
    (hA : s.appState = WheelPage.AppState.spinning gen position)
    (hT : ¬ gen.tokens[position]? = some token) :
    WheelPage.handleDivergingTokenClick s token =
      { s with
          pendingRegen := some
            { token := token
              newBuiltText := UtilsConcat.stitchToken s.builtText token
              newSelectedTokens := s.selectedTokens ++ [token]
              resolved := false
              result := none
              error := none }
          inflight := WheelPage.Inflight.speculation token :: s.inflight
          calls := s.calls + 1 } := by
  simp only [WheelPage.handleDivergingTokenClick, hA]
  rw [if_neg hT]

theorem divergingClick_always_starts_fresh_call_witness :
    WheelPage.handleDivergingTokenClick wheelFloorClick " floor" =
      { wheelFloorClick with
          pendingRegen := some
            { token := " floor"
              newBuiltText := UtilsConcat.stitchToken wheelFloorClick.builtText " floor"
              newSelectedTokens := wheelFloorClick.selectedTokens ++ [" floor"]
              resolved := false
              result := none
              error := none }
          inflight := WheelPage.Inflight.speculation " floor" :: wheelFloorClick.inflight
          calls := wheelFloorClick.calls + 1 } :=
  divergingClick_always_starts_fresh_call wheelFloorClick genCat 0 " floor" rfl (by decide)

/-- The wheel page after the user signalled `" floor"` and then
superseded it by signalling `" bed"`: the pending slot now tracks
`" bed"` while the call for `" floor"` is still outstanding. -/
def wheelBedClick : WheelPage.WheelState :=
  WheelPage.handleDivergingTokenClick wheelFloorClick " bed"

/-- C6: when a speculative call settles after its triggering token has
been superseded — the tracked pending entry, if any, no longer carries
that token — the settlement leaves the whole state untouched: no
session state is mutated and no error is surfaced. -/
theorem speculationSettle_superseded_noop (s : WheelPage.WheelState)
    (token : String) (outcome : Except String GenerationData)
    (h : ∀ p, s.pendingRegen = some p → ¬ p.token = token) :
    WheelPage.speculationSettle s token outcome = s := by
  cases outcome with
  | ok result =>
    simp only [WheelPage.speculationSettle]
    cases hP : s.pendingRegen with
    | none =>
      exact WheelPage.set_pendingRegen_self s none hP
    | some current =>
      simp only [WheelPage.specResolveUpdate]
      rw [if_neg (h current hP)]
      exact WheelPage.set_pendingRegen_self s (some current) hP
  | error msg =>
    simp only [WheelPage.speculationSettle]
    cases hP : s.pendingRegen with
    | none =>
      exact WheelPage.set_pendingRegen_self s none hP
    | some current =>
      simp only [WheelPage.specRejectUpdate]
      rw [if_neg (h current hP)]
      exact WheelPage.set_pendingRegen_self s (some current) hP

theorem speculationSettle_superseded_noop_witness :
    WheelPage.speculationSettle wheelBedClick " floor" (Except.ok genCat) = wheelBedClick :=
  speculationSettle_superseded_noop wheelBedClick " floor" (Except.ok genCat)
    (fun p hp => by
      obtain rfl := Option.some.inj hp
      decide)

/-- C10: every intent handler invoked in a state variant that does not
support it returns the state unchanged (the handlers are total
functions, so no exception is possible): token selection and the
diverging click outside `spinning`, ghost confirm/cancel outside
`ghost`, and undo with an empty undo log or an empty accepted-token
list. -/
theorem unsupported_intents_are_noops :
    (∀ (s : WheelPage.WheelState) (token : String),
        s.appState.isSpinning = false → WheelPage.handleTokenSelect s token = s) ∧
    (∀ (s : WheelPage.WheelState) (token : String),
        s.appState.isSpinning = false →
          WheelPage.handleDivergingTokenClick s token = s) ∧
    (∀ s : WheelPage.WheelState,
        s.undoStack.length = 0 ∨ s.selectedTokens.length = 0 →
          WheelPage.handleUndo s = s) ∧
    (∀ (s : GhostHome.HomeState) (token : String),
        s.appState.isSpinning = false → GhostHome.handleTokenSelect s token = s) ∧
    (∀ s : GhostHome.HomeState,
        s.appState.isGhost = false → GhostHome.handleGhostConfirm s = s) ∧
    (∀ s : GhostHome.HomeState,
        s.appState.isGhost = false → GhostHome.handleGhostCancel s = s) ∧
    (∀ s : GhostHome.HomeState,
        s.appState.isGhost = false →
          s.undoStack.length = 0 ∨ s.selectedTokens.length = 0 →
          GhostHome.handleUndo s = s) := by
  refine ⟨?_, ?_, ?_, ?_, ?_, ?_, ?_⟩
  · intro s token hns
    cases hA : s.appState with
    | loading => simp [WheelPage.handleTokenSelect, hA]
    | complete => simp [WheelPage.handleTokenSelect, hA]
    | spinning gen position =>
      rw [hA] at hns
      simp [WheelPage.AppState.isSpinning] at hns
  · intro s token hns
    cases hA : s.appState with
    | loading => simp [WheelPage.handleDivergingTokenClick, hA]
    | complete => simp [WheelPage.handleDivergingTokenClick, hA]
    | spinning gen position =>
      rw [hA] at hns
      simp [WheelPage.AppState.isSpinning] at hns
  · intro s hguard
    unfold WheelPage.handleUndo
    rw [if_pos hguard]
  · intro s token hns
    cases hA : s.appState with
    | spinning gen position =>
      rw [hA] at hns
      simp [GhostHome.AppState.isSpinning] at hns
    | idle => simp [GhostHome.handleTokenSelect, hA]
    | loading => simp [GhostHome.handleTokenSelect, hA]
    | ghost gen position tok => simp [GhostHome.handleTokenSelect, hA]
    | complete => simp [GhostHome.handleTokenSelect, hA]
  · intro s hng
    cases hA : s.appState with
    | ghost gen position tok =>
      rw [hA] at hng
      simp [GhostHome.AppState.isGhost] at hng
    | idle => simp [GhostHome.handleGhostConfirm, hA]
    | loading => simp [GhostHome.handleGhostConfirm, hA]
    | spinning gen position => simp [GhostHome.handleGhostConfirm, hA]
    | complete => simp [GhostHome.handleGhostConfirm, hA]
  · intro s hng
    cases hA : s.appState with
    | ghost gen position tok =>
      rw [hA] at hng
      simp [GhostHome.AppState.isGhost] at hng
    | idle => simp [GhostHome.handleGhostCancel, hA]
    | loading => simp [GhostHome.handleGhostCancel, hA]
    | spinning gen position => simp [GhostHome.handleGhostCancel, hA]
    | complete => simp [GhostHome.handleGhostCancel, hA]
  · intro s hng hguard
    have hcore : GhostHome.handleUndoCore s = s := by
      unfold GhostHome.handleUndoCore
      rw [if_pos hguard]
    cases hA : s.appState with
    | ghost gen position tok =>
      rw [hA] at hng
      simp [GhostHome.AppState.isGhost] at hng
    | idle => simpa [GhostHome.handleUndo, hA] using hcore
    | loading => simpa [GhostHome.handleUndo, hA] using hcore
    | spinning gen position => simpa [GhostHome.handleUndo, hA] using hcore
    | complete => simpa [GhostHome.handleUndo, hA] using hcore

theorem unsupported_intents_are_noops_witness :
    WheelPage.handleTokenSelect wheelInit " mat" = wheelInit ∧
    WheelPage.handleDivergingTokenClick wheelInit " mat" = wheelInit ∧
    WheelPage.handleUndo wheelSpin = wheelSpin ∧
    GhostHome.handleTokenSelect ghostHome0 " mat" = ghostHome0 ∧
    GhostHome.handleGhostConfirm ghostHome0 = ghostHome0 ∧
    GhostHome.handleGhostCancel ghostHome0 = ghostHome0 ∧
    GhostHome.handleUndo ghostHome0 = ghostHome0 :=
  ⟨unsupported_intents_are_noops.1 wheelInit " mat" rfl,
   unsupported_intents_are_noops.2.1 wheelInit " mat" rfl,
   unsupported_intents_are_noops.2.2.1 wheelSpin (Or.inl rfl),
   unsupported_intents_are_noops.2.2.2.1 ghostHome0 " mat" rfl,
   unsupported_intents_are_noops.2.2.2.2.1 ghostHome0 rfl,
   unsupported_intents_are_noops.2.2.2.2.2.1 ghostHome0 rfl,
   unsupported_intents_are_noops.2.2.2.2.2.2 ghostHome0 rfl (Or.inl rfl)⟩
